import Mathlib

/-!
Shallow embedding of the holdings-string classifier of
`src/smart_parser.py` (class `IntelligentParser`) together with the
regular-expression table of `src/config.py` (`PATTERNS`).

Strings are modelled as `List Char` (the inputs are ASCII; Python's
`str.isdigit` / `str.upper` are modelled on ASCII, which covers every
character class the patterns accept).  Python `float` arithmetic occurs
in exactly two places of the source — the numeric expansion inside
`heal_data` and the price literal `float(token)` — and is modelled by
exact decimal arithmetic, which agrees with the IEEE-754 evaluation on
every concrete value exercised in this file (see the comments at
`renderPiece` and `priceCents` for the boundary cases).
-/

/-- Coerces a Lean string literal to the `List Char` representation used
throughout the model. -/
def chars (s : String) : List Char := s.toList

/-- The double-quote character (written via its code point to keep the
source free of quote-heavy character literals). -/
def dquote : Char := Char.ofNat 34

/-- The single-quote character. -/
def squote : Char := Char.ofNat 39

/-- ASCII whitespace, the characters excluded by the tokenizer's `\S`. -/
def isSpaceCh (c : Char) : Bool :=
  c == ' ' || c == Char.ofNat 9 || c == Char.ofNat 10 || c == Char.ofNat 11 ||
  c == Char.ofNat 12 || c == Char.ofNat 13

/-- Character class `[A-Z0-9]` of the shelving pattern. -/
def isShelvCh (c : Char) : Bool :=
  (('A'.toNat ≤ c.toNat) && (c.toNat ≤ 'Z'.toNat)) || c.isDigit

/-- Numeric value of a decimal digit string (callers only pass digit
characters). -/
def natOfDigits (l : List Char) : Nat :=
  l.foldl (fun a c => 10 * a + (c.toNat - 48)) 0

/-- Decimal rendering, fuelled by the maximal digit count; `400` covers
every value below `10 ^ 400`, far beyond anything the classifier can
produce from its bounded exponents. -/
def natToCharsF : Nat → Nat → List Char
  | 0, _ => []
  | fuel + 1, n =>
    if n = 0 then [] else natToCharsF fuel (n / 10) ++ [Char.ofNat (48 + n % 10)]

/-- Python's `str` of a non-negative `int`: decimal digits, `"0"` for zero. -/
def natToChars (n : Nat) : List Char :=
  if n = 0 then chars "0" else natToCharsF 400 n

/-- Python's `str.isdigit` restricted to ASCII: non-empty and all decimal
digits. -/
def isDigits (t : List Char) : Bool := !t.isEmpty && t.all Char.isDigit

/-- A calendar date as produced by `datetime.strptime(...).date()`. -/
structure Date where
  y : Nat
  m : Nat
  d : Nat
deriving DecidableEq, Repr

/-- Comparison of `datetime` values (all times are midnight, so this is
the lexicographic order on year, month, day), as used by `sorted(...,
key=lambda x: x[1])` in `parse`. -/
def dateLE (a b : Date) : Bool :=
  decide (a.y < b.y) ||
    (decide (a.y = b.y) &&
      (decide (a.m < b.m) || (decide (a.m = b.m) && decide (a.d ≤ b.d))))

/-- Gregorian leap-year rule used by `datetime`. -/
def isLeap (y : Nat) : Bool :=
  (y % 4 == 0) && (y % 100 != 0 || y % 400 == 0)

/-- Days in a month, as validated by the `datetime` constructor. -/
def daysInMonth (y m : Nat) : Nat :=
  if m = 2 then (if isLeap y then 29 else 28)
  else if m = 4 ∨ m = 6 ∨ m = 9 ∨ m = 11 then 30
  else 31

/-- The `datetime` constructor's validation (year ≥ 1; strptime's `%d`
and `%m` classes already force day ≥ 1 and 1 ≤ month ≤ 12; four-digit
years are ≤ 9999, within datetime's range). -/
def mkValidDate (y m d : Nat) : Option Date :=
  if 1 ≤ y ∧ 1 ≤ m ∧ m ≤ 12 ∧ 1 ≤ d ∧ d ≤ daysInMonth y m then
    some ⟨y, m, d⟩
  else none

/-- `datetime.strptime(token, "%Y-%m-%d")` on a token that already passed
the date regex: `%Y` is exactly four digits, `%m`/`%d` here consume
exactly two (a one-digit parse would leave the following digit facing the
literal separator and fail), and strptime requires the whole token to be
consumed — so success is exactly an all-digit `dddd-dd-dd` token of
length 10 whose fields pass calendar validation. -/
def strpYMD : List Char → Option Date
  | [y1, y2, y3, y4, a, m1, m2, b, d1, d2] =>
    if y1.isDigit && y2.isDigit && y3.isDigit && y4.isDigit && (a == '-') &&
       m1.isDigit && m2.isDigit && (b == '-') && d1.isDigit && d2.isDigit then
      mkValidDate (natOfDigits [y1, y2, y3, y4]) (natOfDigits [m1, m2])
        (natOfDigits [d1, d2])
    else none
  | _ => none

/-- `datetime.strptime(token, "%d-%m-%Y")`, same reduction as `strpYMD`. -/
def strpDMYdash : List Char → Option Date
  | [d1, d2, a, m1, m2, b, y1, y2, y3, y4] =>
    if d1.isDigit && d2.isDigit && (a == '-') && m1.isDigit && m2.isDigit &&
       (b == '-') && y1.isDigit && y2.isDigit && y3.isDigit && y4.isDigit then
      mkValidDate (natOfDigits [y1, y2, y3, y4]) (natOfDigits [m1, m2])
        (natOfDigits [d1, d2])
    else none
  | _ => none

/-- `datetime.strptime(token, "%d/%m/%Y")`, same reduction as `strpYMD`. -/
def strpDMYslash : List Char → Option Date
  | [d1, d2, a, m1, m2, b, y1, y2, y3, y4] =>
    if d1.isDigit && d2.isDigit && (a == '/') && m1.isDigit && m2.isDigit &&
       (b == '/') && y1.isDigit && y2.isDigit && y3.isDigit && y4.isDigit then
      mkValidDate (natOfDigits [y1, y2, y3, y4]) (natOfDigits [m1, m2])
        (natOfDigits [d1, d2])
    else none
  | _ => none

/-- `PATTERNS['date'].match(token)`: the regex
`(\d{4}-\d{2}-\d{2}|\d{2}-\d{2}-\d{4}|\d{2}/\d{2}/\d{4})` anchored at the
start only (`.match` is a prefix match). -/
def dateShape (t : List Char) : Bool :=
  match t with
  | a :: b :: c :: d :: e :: f :: g :: h :: i :: j :: _ =>
    (a.isDigit && b.isDigit && c.isDigit && d.isDigit && (e == '-') &&
       f.isDigit && g.isDigit && (h == '-') && i.isDigit && j.isDigit) ||
    (a.isDigit && b.isDigit && (c == '-') && d.isDigit && e.isDigit &&
       (f == '-') && g.isDigit && h.isDigit && i.isDigit && j.isDigit) ||
    (a.isDigit && b.isDigit && (c == '/') && d.isDigit && e.isDigit &&
       (f == '/') && g.isDigit && h.isDigit && i.isDigit && j.isDigit)
  | _ => false

/-- The `try` body of `parse` lines 59–67: format selection by
`'-' in token and token[2] == '-'`, then `'/' in token`, else ISO; a
`ValueError` (modelled by `none`) is swallowed by the bare `except`. -/
def parsePyDate (t : List Char) : Option Date :=
  if t.contains '-' && (t.get? 2 == some '-') then strpDMYdash t
  else if t.contains '/' then strpDMYslash t
  else strpYMD t

/-- `PATTERNS['time']`: `^\d{2}:\d{2}:\d{2}$`. -/
def timeShape (t : List Char) : Bool :=
  match t with
  | [a, b, c, d, e, f, g, h] =>
    a.isDigit && b.isDigit && (c == ':') && d.isDigit && e.isDigit &&
      (f == ':') && g.isDigit && h.isDigit
  | _ => false

/-- ASCII upper-casing, Python's `str.upper` on the inputs at hand. -/
def toUpperTok (t : List Char) : List Char := t.map Char.toUpper

/-- `PATTERNS['currency']`: `^(INR|USD|EUR|GBP|RS\.?|RS)$` with
`re.IGNORECASE` — equivalently, the upper-cased token is one of the six
literal alternatives. -/
def currencyShape (t : List Char) : Bool :=
  let u := toUpperTok t
  u == chars "INR" || u == chars "USD" || u == chars "EUR" ||
    u == chars "GBP" || u == chars "RS." || u == chars "RS"

/-- `PATTERNS['price']`: `^\d+\.\d{2}$` — a maximal leading digit run,
then a dot and exactly two digits ending the token. -/
def priceShape (t : List Char) : Bool :=
  let a := t.takeWhile Char.isDigit
  match t.drop a.length with
  | [c, f1, f2] => !a.isEmpty && (c == '.') && f1.isDigit && f2.isDigit
  | _ => false

/-- Exact value of a price literal in hundredths.  The source stores
`float(token)` and later truncates with `int(...)`; for every literal
whose integer part is below 2^46 the IEEE double of the literal truncates
to the same integer, so the exact decimal model coincides with the source
on all realistic (and all concretely used) prices. -/
def priceCents (t : List Char) : Nat :=
  let a := t.takeWhile Char.isDigit
  match t.drop a.length with
  | [_, f1, f2] => natOfDigits a * 100 + natOfDigits [f1, f2]
  | _ => 0

/-- `PATTERNS['shelving']`: `^[A-Z0-9]+-[A-Z0-9]+-[A-Z0-9]+` — three
non-empty `[A-Z0-9]` runs separated by hyphens, as a prefix; the class
excludes `-`, so the greedy runs are the maximal runs and no backtracking
arises. -/
def shelvShape (t : List Char) : Bool :=
  let r1 := t.takeWhile isShelvCh
  if r1.isEmpty then false
  else
    match t.drop r1.length with
    | c :: t2 =>
      if c == '-' then
        let r2 := t2.takeWhile isShelvCh
        if r2.isEmpty then false
        else
          match t2.drop r2.length with
          | c2 :: t3 => (c2 == '-') && !(t3.takeWhile isShelvCh).isEmpty
          | _ => false
      else false
    | _ => false

/-- `PATTERNS['garbage']`. -/
def garbage : List (List Char) :=
  [chars "0", chars "NONE", chars "NULL", chars "STAC", chars "STACK",
   chars "GEN", chars "REF"]

/-- Splits a list at the first occurrence of `c`: `some (pre, post)` with
the original list equal to `pre ++ c :: post` and `c` not in `pre`. -/
def splitAtFirst (c : Char) : List Char → Option (List Char × List Char)
  | [] => none
  | x :: xs =>
    if x == c then some ([], xs)
    else
      match splitAtFirst c xs with
      | some (pre, post) => some (x :: pre, post)
      | none => none

/-- One token of `PATTERNS['tokenizer']`
(`\"\'[^\"]+\'\"|\"[^\"]+\"|\'[^\']+\'|\S+`) matched at the head of `l`
(the head is known to be non-whitespace).  The alternatives are tried in
regex order; each quoted alternative closes at the first matching quote
(the bracketed classes exclude it, so greediness is determinate), and
`\S+` is the maximal non-whitespace run. -/
def tokenAt (l : List Char) : List Char :=
  let fallback := l.takeWhile (fun c => !isSpaceCh c)
  match l with
  | c1 :: c2 :: rest =>
    if c1 == dquote && c2 == squote then
      -- Alternatives 1 (`"'[^"]+'"`) and 2 (`"[^"]+"`) both close at the
      -- first `"` after the opening one (their classes exclude `"`), and
      -- both start at `c1`, so whenever a closing `"` exists the match is
      -- the same segment; alternative 2's content `'`‥ is never empty.
      match splitAtFirst dquote rest with
      | some (pre, _) => c1 :: c2 :: pre ++ [dquote]
      | none => fallback
    else if c1 == dquote then
      match splitAtFirst dquote (c2 :: rest) with
      | some (pre, _) => if !pre.isEmpty then c1 :: pre ++ [dquote] else fallback
      | none => fallback
    else if c1 == squote then
      match splitAtFirst squote (c2 :: rest) with
      | some (pre, _) => if !pre.isEmpty then c1 :: pre ++ [squote] else fallback
      | none => fallback
    else fallback
  | _ => fallback

/-- Fuelled scanner of `re.findall`: at each position emit the token
matched there (if the position is not whitespace) and continue after it.
Every step consumes at least one character, so fuel = input length
suffices. -/
def tokenizeF : Nat → List Char → List (List Char)
  | 0, _ => []
  | _ + 1, [] => []
  | fuel + 1, c :: rest =>
    if isSpaceCh c then tokenizeF fuel rest
    else
      let t := tokenAt (c :: rest)
      t :: tokenizeF fuel ((c :: rest).drop t.length)

/-- `self.tokens = PATTERNS['tokenizer'].findall(self.raw)` (method
`tokenize`, lines 24–31). -/
def tokenize (l : List Char) : List (List Char) := tokenizeF l.length l

/-- A fragment of the healed string: a plain character, or one
scientific-notation match `(\d\.\d+)[Ee]\+(\d+)` recorded as the digits
of its mantissa (`num`, with `fracLen` fractional digits) and its
exponent `e`. -/
inductive Piece where
  | chr (c : Char)
  | sci (num fracLen e : Nat)
deriving DecidableEq, Repr

/-- Attempts to match `(\d\.\d+)[Ee]\+(\d+)` at the head of `l`;
returns the mantissa digits' value, the fractional digit count, the
exponent value and the total matched length.  Both `\d+` groups are
greedy maximal runs (the characters that follow them in the pattern are
not digits, so no backtracking occurs). -/
def sciMatchAt (l : List Char) : Option (Nat × Nat × Nat × Nat) :=
  match l with
  | d0 :: c :: rest =>
    if d0.isDigit && (c == '.') then
      let frac := rest.takeWhile Char.isDigit
      if frac.isEmpty then none
      else
        match rest.drop frac.length with
        | e :: p :: rest2 =>
          if (e == 'E' || e == 'e') && (p == '+') then
            let ex := rest2.takeWhile Char.isDigit
            if ex.isEmpty then none
            else
              some (natOfDigits (d0 :: frac), frac.length, natOfDigits ex,
                    2 + frac.length + 2 + ex.length)
          else none
        | _ => none
    else none
  | _ => none

/-- Fuelled scan of `re.sub`'s match enumeration: leftmost matches,
resuming after each match.  Fuel = input length suffices because every
step consumes at least one character. -/
def healScanF : Nat → List Char → List Piece
  | 0, _ => []
  | _ + 1, [] => []
  | fuel + 1, c :: rest =>
    match sciMatchAt (c :: rest) with
    | some (num, fracLen, e, len) =>
      .sci num fracLen e :: healScanF fuel ((c :: rest).drop len)
    | none => .chr c :: healScanF fuel rest

/-- All scientific-notation matches (and interleaved plain text) of the
raw string, in order. -/
def healScan (l : List Char) : List Piece := healScanF l.length l

/-- Whether Python's replacement expression
`int(float(m.group(1)) * (10 ** int(m.group(2))))` raises for this
match: converting `10 ** e` to float raises `OverflowError` as soon as
`e ≥ 309` (the mantissa `\d\.\d+` itself is below 10 and always converts).
A narrow further overflow exists at `e = 308` with mantissa ≥ ≈1.7977
(the product rounds to infinity); no statement in this file depends on
that boundary. -/
def pieceOverflow : Piece → Bool
  | .chr _ => false
  | .sci _ _ e => decide (309 ≤ e)

/-- Replacement text of a fragment: a plain character stays itself; a
match becomes `str(int(float(mantissa) * 10 ** e))`, modelled by exact
decimal arithmetic (floor of `num · 10 ^ e / 10 ^ fracLen`), which agrees
with the source's IEEE-double evaluation on every value used concretely
in this file. -/
def renderPiece : Piece → List Char
  | .chr c => [c]
  | .sci num fracLen e =>
    natToChars (if fracLen ≤ e then num * 10 ^ (e - fracLen)
                else num / 10 ^ (fracLen - e))

/-- `heal_data` (lines 18–22): `PATTERNS['scientific_notation'].sub(...)`.
`none` models the `OverflowError` escaping (there is no `try` in
`heal_data`). -/
def heal_data (l : List Char) : Option (List Char) :=
  if (healScan l).any pieceOverflow then none
  else some ((healScan l).map renderPiece).flatten

/-- The typed record built by `parse` (the `self.data` dictionary,
lines 10–16).  `price` is stored in hundredths (see `priceCents`);
`status_flags` are the four ints of the source. -/
structure RecordData where
  price : Option Nat
  currency : List Char
  barcode : Option (List Char)
  call_number : Option (List Char)
  shelving_location : Option (List Char)
  library_code : Option (List Char)
  vendor : Option (List Char)
  bill_number : Option (List Char)
  bill_date : Option Date
  date_acquired : Option Date
  last_seen_date : Option Date
  last_seen_time : Option (List Char)
  status_flags : List Nat
deriving DecidableEq, Repr

/-- `t.isdigit() and len(t) == 1`: a single ASCII digit. -/
def singleDigit (t : List Char) : Bool :=
  match t with
  | [c] => c.isDigit
  | _ => false

/-- Stage 1 (lines 39–42): if the first four tokens are all single
digits they become the flags and are removed; otherwise the default
`[0, 0, 0, 0]` stays and the token pool is untouched. -/
def stripFlags (ts : List (List Char)) : List Nat × List (List Char) :=
  if 4 ≤ ts.length ∧ ((ts.take 4).all singleDigit = true) then
    ((ts.take 4).map natOfDigits, ts.drop 4)
  else ([0, 0, 0, 0], ts)

/-- State of the stage-2 walk (lines 44–72): the surviving tokens
(`clean_tokens`), the `(index-in-clean, date)` pairs (`date_indices`),
and the last-written time and currency slots. -/
structure Stage2 where
  clean : List (List Char)
  dates : List (Nat × Date)
  time : Option (List Char)
  curr : List Char
deriving DecidableEq, Repr

/-- One iteration of the stage-2 loop.  Note the placement of the
`continue` in the source: a date-shaped token whose `strptime` fails is
neither recorded nor appended to `clean_tokens` — it is dropped. -/
def stage2Step (s : Stage2) (t : List Char) : Stage2 :=
  if timeShape t then { s with time := some t }
  else if currencyShape t then { s with curr := toUpperTok t }
  else if dateShape t then
    match parsePyDate t with
    | some d => { s with clean := s.clean ++ [t], dates := s.dates ++ [(s.clean.length, d)] }
    | none => s
  else { s with clean := s.clean ++ [t] }

/-- The stage-2 walk over the post-flag token pool. -/
def stage2Run (ts : List (List Char)) : Stage2 :=
  ts.foldl stage2Step ⟨[], [], none, chars "INR"⟩

/-- Quote stripping of the bill-number candidate
(`candidate.replace('"', '').replace("'", "")`). -/
def stripQuotes (t : List Char) : List Char :=
  t.filter (fun c => !(c == dquote) && !(c == squote))

/-- Stage 3 (lines 75–92), anchor part: the token immediately before the
first date (by position) becomes the bill number unless it is one of the
reserved literals.  `getD` is total where the source indexes directly;
the index `p - 1` is always in range because `p` is the clean-list index
of the first date. -/
def anchorBill (s : Stage2) : Option (List Char) :=
  match s.dates with
  | [] => none
  | (p, _) :: _ =>
    if 0 < p then
      let cand := s.clean.getD (p - 1) []
      if cand ≠ chars "0" ∧ cand ≠ chars "NONE" ∧ cand ≠ chars "VIT" ∧
         cand ≠ chars "NULL" ∧ cand ≠ chars "STAC" then
        some (stripQuotes cand)
      else none
    else none

/-- Zero padding to two digits, as in `date.__str__` / `%02d`. -/
def pad2 (n : Nat) : List Char :=
  [Char.ofNat (48 + n / 10 % 10), Char.ofNat (48 + n % 10)]

/-- Zero padding to four digits (`%04d`; `strftime('%Y')` padding for
years below 1000 is platform-dependent, but every date in this file has
a four-digit year). -/
def pad4 (n : Nat) : List Char :=
  [Char.ofNat (48 + n / 1000 % 10), Char.ofNat (48 + n / 100 % 10),
   Char.ofNat (48 + n / 10 % 10), Char.ofNat (48 + n % 10)]

/-- `str(d.date())`: ISO `YYYY-MM-DD`. -/
def isoOf (d : Date) : List Char :=
  pad4 d.y ++ '-' :: pad2 d.m ++ '-' :: pad2 d.d

/-- `d.strftime("%d/%m/%Y")`: `DD/MM/YYYY`. -/
def dmyOf (d : Date) : List Char :=
  pad2 d.d ++ '/' :: pad2 d.m ++ '/' :: pad4 d.y

/-- Whether `h` starts with `n`. -/
def beginsWith : List Char → List Char → Bool
  | [], _ => true
  | _ :: _, [] => false
  | a :: as, b :: bs => (a == b) && beginsWith as bs

/-- Python's substring test `n in h`. -/
def hasSub (n h : List Char) : Bool :=
  match h with
  | [] => n.isEmpty
  | _ :: rest => beginsWith n h || hasSub n rest

/-- The stage-4 skip test (lines 98–99): the token equals the captured
bill number, or contains the ISO or `%d/%m/%Y` rendering of any parsed
date as a substring. -/
def stage4Skip (bn : Option (List Char)) (dates : List (Nat × Date))
    (t : List Char) : Bool :=
  bn == some t ||
    dates.any (fun pd => hasSub (isoOf pd.2) t || hasSub (dmyOf pd.2) t)

/-- State of the stage-4 walk (lines 94–108). -/
structure Stage4 where
  lib : Option (List Char)
  shelv : Option (List Char)
  price : Option Nat
  unknowns : List (List Char)
deriving DecidableEq, Repr

/-- One iteration of stage 4.  Every assignment overwrites: in
particular a later price-shaped token replaces an earlier price. -/
def stage4Step (bn : Option (List Char)) (dates : List (Nat × Date))
    (s : Stage4) (t : List Char) : Stage4 :=
  if stage4Skip bn dates t then s
  else if t = chars "VIT" then { s with lib := some (chars "VIT") }
  else if shelvShape t then { s with shelv := some t }
  else if priceShape t then { s with price := some (priceCents t) }
  else { s with unknowns := s.unknowns ++ [t] }

/-- The stage-4 walk over the clean tokens. -/
def stage4Run (bn : Option (List Char)) (dates : List (Nat × Date))
    (clean : List (List Char)) : Stage4 :=
  clean.foldl (stage4Step bn dates) ⟨none, none, none, []⟩

/-- Line 114: `self.data['price'] and str(int(self.data['price'])) ==
token` — a price of `0.0` is falsy, so the exclusion is disabled for it,
and the comparison is by the canonical decimal string of the truncated
price. -/
def isPriceTok (price : Option Nat) (t : List Char) : Bool :=
  match price with
  | some c => !(c == 0) && (t == natToChars (c / 100))
  | none => false

/-- State of the stage-5 walk (lines 110–131). -/
structure Stage5 where
  barcode : Option (List Char)
  call : Option (List Char)
  parts : List (List Char)
deriving DecidableEq, Repr

/-- One iteration of stage 5: barcode test first (first match wins),
then call-number test (first match wins), then the vendor accumulator. -/
def stage5Step (price : Option Nat) (s : Stage5) (t : List Char) : Stage5 :=
  if isDigits t && decide (3 < t.length) && !isPriceTok price t then
    if s.barcode = none then { s with barcode := some t } else s
  else if (t.contains '.' || t.contains ':') && t.any Char.isDigit then
    if s.call = none then { s with call := some t } else s
  else if ¬ t ∈ garbage ∧ 1 < t.length then { s with parts := s.parts ++ [t] }
  else s

/-- The stage-5 walk over the unknowns. -/
def stage5Run (price : Option Nat) (us : List (List Char)) : Stage5 :=
  us.foldl (stage5Step price) ⟨none, none, []⟩

/-- The stage-2 state of a token pool (after flag stripping). -/
def s2Of (ts : List (List Char)) : Stage2 := stage2Run (stripFlags ts).2

/-- The stage-4 state of a token pool. -/
def s4Of (ts : List (List Char)) : Stage4 :=
  stage4Run (anchorBill (s2Of ts)) (s2Of ts).dates (s2Of ts).clean

/-- The stage-5 state of a token pool. -/
def s5Of (ts : List (List Char)) : Stage5 :=
  stage5Run (s4Of ts).price (s4Of ts).unknowns

/-- The sorting relation of `sorted(date_indices, key=lambda x: x[1])`
on date values. -/
def dle (a b : Date) : Prop := dateLE a b = true

instance : DecidableRel dle := fun a b => instDecidableEqBool _ _

/-- The same relation lifted to `(position, date)` pairs via the key. -/
def pdle (p q : Nat × Date) : Prop := dle p.2 q.2

instance : DecidableRel pdle := fun p q => instDecidableEqBool _ _

/-- `sorted_dates` of lines 76–77. -/
def sortedPairsOf (ts : List (List Char)) : List (Nat × Date) :=
  List.insertionSort pdle (s2Of ts).dates

/-- Sorting of bare date values (same key), for statements. -/
def sortDates (ds : List Date) : List Date := List.insertionSort dle ds

/-- The whole of `parse` (lines 33–133) after tokenization: flags,
date/time/currency extraction, anchor resolution, structural
classification, residual classification, assembled into the record.
`bill_date`/`last_seen_date` are the first/last of the value-sorted
pairs (lines 78–79); `date_acquired` follows line 82's conditional. -/
def classifyTokens (ts : List (List Char)) : RecordData :=
  { price := (s4Of ts).price
    currency := (s2Of ts).curr
    barcode := (s5Of ts).barcode
    call_number := (s5Of ts).call
    shelving_location := (s4Of ts).shelv
    library_code := (s4Of ts).lib
    vendor := if (s5Of ts).parts = [] then none
              else some (List.intercalate [' '] (s5Of ts).parts)
    bill_number := anchorBill (s2Of ts)
    bill_date := (sortedPairsOf ts).head?.map Prod.snd
    date_acquired :=
      if 1 < (sortedPairsOf ts).length then
        (if 2 < (sortedPairsOf ts).length then ((sortedPairsOf ts)[1]?).map Prod.snd
         else (sortedPairsOf ts).getLast?.map Prod.snd)
      else none
    last_seen_date := (sortedPairsOf ts).getLast?.map Prod.snd
    last_seen_time := (s2Of ts).time
    status_flags := (stripFlags ts).1 }

/-- Outcome of constructing an `IntelligentParser` and calling `parse`:
`raised` when an exception escapes (`heal_data` has no handler),
`noData` for the `return None` of line 34, otherwise the record. -/
inductive ParseOutcome where
  | raised
  | noData
  | record (r : RecordData)
deriving DecidableEq, Repr

/-- `self.raw` of `__init__` line 7: empty input skips healing
(`if raw_string else ""`), non-empty input is healed (possibly raising). -/
def healedOf (raw : List Char) : Option (List Char) :=
  if raw = [] then some [] else heal_data raw

/-- `IntelligentParser(raw).parse()` end to end. -/
def classify (raw : List Char) : ParseOutcome :=
  match healedOf raw with
  | none => .raised
  | some h => if h = [] then .noData else .record (classifyTokens (tokenize h))

/-- The token pool the classifier works on, for use in statements. -/
def rawTokens (raw : List Char) : List (List Char) :=
  match healedOf raw with
  | some h => tokenize h
  | none => []

/-- The successfully parsed date values of an input, in encounter order
(the `d` components of `date_indices`). -/
def rawDates (raw : List Char) : List Date :=
  ((s2Of (rawTokens raw)).dates).map Prod.snd

/-- The clean token pool after the date/time/currency stage. -/
def rawClean (raw : List Char) : List (List Char) :=
  (s2Of (rawTokens raw)).clean

/-! Helper lemmas about the embedded pipeline. -/

theorem dle_refl (a : Date) : dle a a := by simp [dle, dateLE]

theorem dle_total (a b : Date) : dle a b ∨ dle b a := by
  simp only [dle, dateLE, Bool.or_eq_true, Bool.and_eq_true, decide_eq_true_eq]
  omega

theorem dle_trans {a b c : Date} (h1 : dle a b) (h2 : dle b c) : dle a c := by
  simp only [dle, dateLE, Bool.or_eq_true, Bool.and_eq_true, decide_eq_true_eq] at h1 h2 ⊢
  omega

instance : IsTotal Date dle := ⟨dle_total⟩

instance : IsTrans Date dle := ⟨fun _ _ _ => dle_trans⟩

instance : IsTotal (Nat × Date) pdle := ⟨fun p q => dle_total p.2 q.2⟩

instance : IsTrans (Nat × Date) pdle := ⟨fun _ _ _ => dle_trans⟩

/-- Extraction: a `record` outcome is the classification of the token
pool of the (healed) input. -/
theorem classify_record_eq {raw : List Char} {R : RecordData}
    (h : classify raw = .record R) : R = classifyTokens (rawTokens raw) := by
  unfold classify at h
  unfold rawTokens
  cases e : healedOf raw with
  | none => rw [e] at h; cases h
  | some hl =>
    rw [e] at h
    dsimp only at h ⊢
    by_cases he : hl = []
    · rw [if_pos he] at h; cases h
    · rw [if_neg he] at h
      injection h with h'
      exact h'.symm

/-- A piece that is a plain character. -/
def isChr : Piece → Bool
  | .chr _ => true
  | .sci _ _ _ => false

/-- Whether the string contains no scientific-notation match at all. -/
def noSciMatch (l : List Char) : Bool := (healScan l).all isChr

theorem healScanF_all_chr_flatten :
    ∀ (fuel : Nat) (l : List Char), l.length ≤ fuel →
      (healScanF fuel l).all isChr = true →
      ((healScanF fuel l).map renderPiece).flatten = l := by
  intro fuel
  induction fuel with
  | zero =>
    intro l hl _
    have : l = [] := List.eq_nil_of_length_eq_zero (Nat.le_zero.mp hl)
    subst this; rfl
  | succ fuel ih =>
    intro l hl hall
    cases l with
    | nil => rfl
    | cons c rest =>
      cases m : sciMatchAt (c :: rest) with
      | some q =>
        obtain ⟨num, fracLen, e, len⟩ := q
        rw [show healScanF (fuel + 1) (c :: rest)
              = .sci num fracLen e :: healScanF fuel ((c :: rest).drop len) from by
            rw [healScanF, m]] at hall
        simp [isChr] at hall
      | none =>
        have hrw : healScanF (fuel + 1) (c :: rest) = .chr c :: healScanF fuel rest := by
          rw [healScanF, m]
        rw [hrw] at hall ⊢
        simp only [List.all_cons, Bool.and_eq_true] at hall
        simp only [List.map_cons, List.flatten_cons, renderPiece]
        rw [ih rest (by simpa using hl) hall.2]
        rfl

/-- Healing is the identity on a string with no scientific-notation
match. -/
theorem heal_data_noMatch (h : List Char) (hnm : noSciMatch h = true) :
    heal_data h = some h := by
  have hov : (healScan h).any pieceOverflow = false := by
    rw [List.any_eq_false]
    intro p hp
    have hc := (List.all_eq_true.mp hnm) p hp
    cases p with
    | chr c => simp [pieceOverflow]
    | sci a b e => simp [isChr] at hc
  unfold heal_data
  rw [hov]
  simp only [Bool.false_eq_true, if_false]
  rw [show healScan h = healScanF h.length h from rfl,
      healScanF_all_chr_flatten h.length h le_rfl hnm]

/-- C8: an empty raw string (the only length below the code's threshold,
which is non-emptiness) short-circuits to the distinguished no-data
outcome — `parse` returns `None` at line 34 rather than a zero-valued
record. -/
theorem C8_theorem (raw : List Char) (h : raw.length < 1) :
    classify raw = .noData := by
  have : raw = [] := List.eq_nil_of_length_eq_zero (by omega)
  subst this
  rfl

/-- Witness for C8 at the empty string. -/
theorem C8_witness : classify [] = .noData := C8_theorem [] (by decide)

/-- C9 (amended): healing is idempotent on every input whose healed
output contains no residual scientific-notation match; a second pass is
then a no-op.  (In general a second pass can differ: a replacement's
digits can merge with adjacent text into a new match — see the
counterexample.) -/
theorem C9_amended (s h : List Char) (hs : heal_data s = some h)
    (hnm : noSciMatch h = true) : (heal_data s).bind heal_data = heal_data s := by
  rw [hs, Option.some_bind, heal_data_noMatch h hnm]

/-- Witness for C9 (amended) at the Scenario C input. -/
theorem C9_amended_witness :
    (heal_data (chars "9.78812E+12")).bind heal_data
      = heal_data (chars "9.78812E+12") :=
  C9_amended (chars "9.78812E+12") (chars "9788120000000") (by decide) (by decide)

/-- C9 (counterexample): `heal(heal(s)) ≠ heal(s)` for
`s = "1.0E+1.0E+1"` — the first pass turns it into `"10.0E+1"`, whose
digits form a fresh match, so the second pass yields `"10"`. -/
theorem C9_counterexample :
    heal_data (chars "1.0E+1.0E+1") = some (chars "10.0E+1") ∧
    heal_data (chars "10.0E+1") = some (chars "10") ∧
    chars "10" ≠ chars "10.0E+1" := by
  refine ⟨by decide, by decide, by decide⟩

/-- C10 (amended): the Healer is not exception-safe — whenever some
scientific-notation match has exponent ≥ 309, Python's conversion of
`10 ** e` to float raises `OverflowError`, `heal_data` has no handler,
and the exception escapes (no record and no no-data outcome is
produced); the original substring is not preserved anywhere. -/
theorem C10_amended (raw : List Char) (hne : raw ≠ [])
    (hov : (healScan raw).any pieceOverflow = true) :
    classify raw = .raised := by
  have h1 : heal_data raw = none := by
    unfold heal_data
    rw [hov]
    simp
  unfold classify healedOf
  rw [if_neg hne, h1]

/-- Witness for C10 (amended) at `"1.5E+400"`. -/
theorem C10_amended_witness : classify (chars "1.5E+400") = .raised :=
  C10_amended (chars "1.5E+400") (by decide) (by decide)

/-- C10 (counterexample): on `"1.5E+400"` the Healer raises — the whole
classification aborts with an exception instead of leaving the substring
unchanged. -/
theorem C10_counterexample :
    classify (chars "1.5E+400") = .raised ∧
    heal_data (chars "1.5E+400") = none := by
  refine ⟨by decide, by decide⟩

theorem stage2_foldl_clean_inv (ts : List (List Char)) :
    ∀ (s : Stage2), (∀ t ∈ s.clean, dateShape t = true → parsePyDate t ≠ none) →
      ∀ t ∈ (ts.foldl stage2Step s).clean, dateShape t = true → parsePyDate t ≠ none := by
  induction ts with
  | nil => intro s hs; simpa using hs
  | cons a ts ih =>
    intro s hs
    rw [List.foldl_cons]
    apply ih
    intro t ht hshape
    by_cases h1 : timeShape a = true
    · simp only [stage2Step, h1, if_true] at ht
      exact hs t ht hshape
    · by_cases h2 : currencyShape a = true
      · simp only [stage2Step, h1, h2, if_true, if_false] at ht
        exact hs t ht hshape
      · by_cases h3 : dateShape a = true
        · cases hp : parsePyDate a with
          | none =>
            simp only [stage2Step, h1, h2, h3, hp, if_true, if_false] at ht
            exact hs t ht hshape
          | some d =>
            simp only [stage2Step, h1, h2, h3, hp, if_true, if_false] at ht
            rcases List.mem_append.mp ht with ht' | ht'
            · exact hs t ht' hshape
            · have : t = a := List.mem_singleton.mp ht'
              subst this
              rw [hp]
              exact fun hc => Option.noConfusion hc
        · simp only [stage2Step, h1, h2, h3, if_true, if_false] at ht
          rcases List.mem_append.mp ht with ht' | ht'
          · exact hs t ht' hshape
          · have : t = a := List.mem_singleton.mp ht'
            subst this
            exact absurd hshape h3

/-- C3 (amended): a date-shaped token whose calendar validation fails is
consumed by the date stage without any assignment — it does not survive
into the clean pool, so it is invisible to the structural and residual
classifiers (the `continue` after the bare `except` skips the
`clean_tokens.append`). -/
theorem C3_amended (raw : List Char) (t : List Char)
    (ht : t ∈ rawClean raw) (hshape : dateShape t = true) :
    parsePyDate t ≠ none := by
  have h0 : ∀ u ∈ (⟨[], [], none, chars "INR"⟩ : Stage2).clean,
      dateShape u = true → parsePyDate u ≠ none := by
    intro u hu
    simp at hu
  exact stage2_foldl_clean_inv (stripFlags (rawTokens raw)).2 _ h0 t ht hshape

/-- Witness for C3 (amended): the well-formed date token of Scenario A
does survive into the clean pool, and the theorem applies to it. -/
theorem C3_amended_witness : parsePyDate (chars "2007-06-15") ≠ none :=
  C3_amended (chars "2007-06-15") (chars "2007-06-15") (by decide) (by decide)

/-- C3 (counterexample): the malformed date `"2021-13-45"` matches the
date shape, fails validation, and is dropped: the clean pool afterwards
is empty and the resulting record is entirely default — the token is not
retained for any later stage. -/
theorem C3_counterexample :
    dateShape (chars "2021-13-45") = true ∧
    parsePyDate (chars "2021-13-45") = none ∧
    rawClean (chars "2021-13-45") = [] ∧
    classify (chars "2021-13-45") = .record
      { price := none, currency := chars "INR", barcode := none,
        call_number := none, shelving_location := none, library_code := none,
        vendor := none, bill_number := none, bill_date := none,
        date_acquired := none, last_seen_date := none, last_seen_time := none,
        status_flags := [0, 0, 0, 0] } := by
  refine ⟨by decide, by decide, by decide, by decide⟩

/-- C4: flag assignment is all-or-nothing — when the first four tokens
are not four single digits (including shorter pools), the flags stay at
the default `[0,0,0,0]` and the flag stage removes no token. -/
theorem C4_theorem (raw : List Char) (R : RecordData)
    (hR : classify raw = .record R)
    (h : ¬(4 ≤ (rawTokens raw).length ∧
           ((rawTokens raw).take 4).all singleDigit = true)) :
    R.status_flags = [0, 0, 0, 0] ∧
    stripFlags (rawTokens raw) = ([0, 0, 0, 0], rawTokens raw) := by
  have hs : stripFlags (rawTokens raw) = ([0, 0, 0, 0], rawTokens raw) := by
    unfold stripFlags
    rw [if_neg h]
  refine ⟨?_, hs⟩
  rw [classify_record_eq hR]
  show (stripFlags (rawTokens raw)).1 = [0, 0, 0, 0]
  rw [hs]

/-- Witness for C4 on `"ab 0 0 0"` (first token not a digit). -/
theorem C4_witness :
    (RecordData.mk none (chars "INR") none none none none (some (chars "ab"))
        none none none none none [0, 0, 0, 0]).status_flags = [0, 0, 0, 0] ∧
    stripFlags (rawTokens (chars "ab 0 0 0"))
      = ([0, 0, 0, 0], rawTokens (chars "ab 0 0 0")) :=
  C4_theorem (chars "ab 0 0 0") _ (by decide) (by decide)

/-- A clean token that reaches and passes the price test of stage 4: it
is not skipped, is not the library-code literal, is not shelving-shaped
(those branches come first), and has the price shape. -/
def stage4PriceCand (bn : Option (List Char)) (dates : List (Nat × Date))
    (t : List Char) : Bool :=
  !stage4Skip bn dates t && !decide (t = chars "VIT") && !shelvShape t &&
    priceShape t

theorem stage4Step_price_of_not_cand (bn : Option (List Char))
    (dates : List (Nat × Date)) (s : Stage4) (t : List Char)
    (h : stage4PriceCand bn dates t = false) :
    (stage4Step bn dates s t).price = s.price := by
  unfold stage4Step
  by_cases h1 : stage4Skip bn dates t = true
  · rw [if_pos h1]
  · rw [if_neg h1]
    by_cases h2 : t = chars "VIT"
    · rw [if_pos h2]
    · rw [if_neg h2]
      by_cases h3 : shelvShape t = true
      · rw [if_pos h3]
      · rw [if_neg h3]
        by_cases h4 : priceShape t = true
        · exfalso
          unfold stage4PriceCand at h
          simp [h1, h2, h3, h4] at h
        · rw [if_neg h4]

theorem stage4_foldl_price (bn : Option (List Char)) (dates : List (Nat × Date))
    (clean : List (List Char)) :
    ∀ s : Stage4,
      (clean.foldl (stage4Step bn dates) s).price =
        match (clean.filter (stage4PriceCand bn dates)).getLast? with
        | some t => some (priceCents t)
        | none => s.price := by
  induction clean using List.reverseRecOn with
  | nil => intro s; rfl
  | append_singleton l t ih =>
    intro s
    rw [List.foldl_append, List.foldl_cons, List.foldl_nil, List.filter_append]
    by_cases hc : stage4PriceCand bn dates t = true
    · rw [show List.filter (stage4PriceCand bn dates) [t] = [t] from by
        simp [List.filter_singleton, hc]]
      rw [List.getLast?_concat]
      have hb := hc
      unfold stage4PriceCand at hb
      simp only [Bool.and_eq_true, Bool.not_eq_true'] at hb
      obtain ⟨⟨⟨hskip, hvit⟩, hshelv⟩, hprice⟩ := hb
      unfold stage4Step
      rw [if_neg (by simp [hskip]), if_neg (by simpa using hvit),
          if_neg (by simp [hshelv]), if_pos hprice]
    · rw [show List.filter (stage4PriceCand bn dates) [t] = [] from by
        simp [List.filter_singleton, hc]]
      rw [List.append_nil]
      rw [stage4Step_price_of_not_cand bn dates _ t (by simpa using hc)]
      exact ih s

/-- The stage-4 tokens of an input that reach and pass the price test,
in order. -/
def stage4PriceCands (raw : List Char) : List (List Char) :=
  (s2Of (rawTokens raw)).clean.filter
    (stage4PriceCand (anchorBill (s2Of (rawTokens raw)))
      (s2Of (rawTokens raw)).dates)

/-- C5 (amended): in the structural pass the price slot is overwritten on
every price-shaped token that reaches the test, so the captured price is
the value of the LAST such token, not the first (there is no
`if not self.data['price']` guard on line 106). -/
theorem C5_amended (raw : List Char) (R : RecordData)
    (hR : classify raw = .record R) :
    R.price = (stage4PriceCands raw).getLast?.map priceCents := by
  rw [classify_record_eq hR]
  show (s4Of (rawTokens raw)).price = _
  unfold s4Of stage4Run
  rw [stage4_foldl_price]
  unfold stage4PriceCands
  cases ((s2Of (rawTokens raw)).clean.filter
      (stage4PriceCand (anchorBill (s2Of (rawTokens raw)))
        (s2Of (rawTokens raw)).dates)).getLast? with
  | none => rfl
  | some t => rfl

/-- Witness for C5 (amended) on `"100.50 200.75"`: both tokens are
candidates and the captured price is the later one's value. -/
theorem C5_amended_witness :
    (RecordData.mk (some 20075) (chars "INR") none none none none none
        none none none none none [0, 0, 0, 0]).price
      = (stage4PriceCands (chars "100.50 200.75")).getLast?.map priceCents :=
  C5_amended (chars "100.50 200.75") _ (by decide)

/-- C5 (counterexample): on `"100.50 200.75"` the first price-shaped
token's value (10050 hundredths) is NOT the captured price — the later
token overwrites it and the record holds 20075. -/
theorem C5_counterexample :
    (¬ ∃ R : RecordData, classify (chars "100.50 200.75") = .record R ∧
        R.price = some 10050) ∧
    (∃ R : RecordData, classify (chars "100.50 200.75") = .record R ∧
        R.price = some 20075) := by
  constructor
  · rintro ⟨R, hR, hp⟩
    have : R = RecordData.mk (some 20075) (chars "INR") none none none none
        none none none none none none [0, 0, 0, 0] := by
      have h2 : classify (chars "100.50 200.75") = .record
          (RecordData.mk (some 20075) (chars "INR") none none none none
            none none none none none none [0, 0, 0, 0]) := by decide
      rw [h2] at hR
      injection hR with h'
      exact h'.symm
    rw [this] at hp
    cases hp
  · exact ⟨RecordData.mk (some 20075) (chars "INR") none none none none
      none none none none none none [0, 0, 0, 0], by decide, rfl⟩

theorem stage5_foldl_barcode_inv (price : Option Nat) (c : Nat)
    (hp : price = some c) (hc : c ≠ 0) :
    ∀ (us : List (List Char)) (s : Stage5),
      s.barcode ≠ some (natToChars (c / 100)) →
      (us.foldl (stage5Step price) s).barcode ≠ some (natToChars (c / 100)) := by
  intro us
  induction us with
  | nil => intro s h; simpa using h
  | cons t rest ih =>
    intro s h
    rw [List.foldl_cons]
    apply ih
    unfold stage5Step
    by_cases h1 : (isDigits t && decide (3 < t.length) && !isPriceTok price t) = true
    · rw [if_pos h1]
      by_cases h2 : s.barcode = none
      · rw [if_pos h2]
        simp only
        intro heq
        injection heq with heq'
        have hip : isPriceTok price t = false := by
          simp only [Bool.and_eq_true, Bool.not_eq_true'] at h1
          exact h1.2
        rw [hp] at hip
        unfold isPriceTok at hip
        simp only [Bool.and_eq_true, Bool.not_eq_true', beq_eq_false_iff_ne,
          ne_eq] at hip
        rcases Bool.and_eq_false_iff.mp hip with hip' | hip'
        · rw [Bool.not_eq_false', beq_iff_eq] at hip'
          exact hc hip'
        · rw [beq_eq_false_iff_ne] at hip'
          exact hip' heq'
      · rw [if_neg h2]; exact h
    · rw [if_neg h1]
      by_cases h3 : ((t.contains '.' || t.contains ':') && t.any Char.isDigit) = true
      · rw [if_pos h3]
        by_cases h4 : s.call = none
        · rw [if_pos h4]; exact h
        · rw [if_neg h4]; exact h
      · rw [if_neg h3]
        by_cases h5 : ¬t ∈ garbage ∧ 1 < t.length
        · rw [if_pos h5]; exact h
        · rw [if_neg h5]; exact h

/-- C7 (amended): a pool token spelled exactly as `str(int(price))` — the
canonical decimal string of the truncated captured price — is excluded
from barcode candidacy, provided the price is non-zero (a `0.00` price is
falsy on line 114 and disables the exclusion).  Tokens whose integer
VALUE merely equals the truncation but are spelled differently (leading
zeros) are NOT excluded — see the counterexample. -/
theorem C7_amended (raw : List Char) (R : RecordData)
    (hR : classify raw = .record R) (c : Nat) (hp : R.price = some c)
    (hc : c ≠ 0) : R.barcode ≠ some (natToChars (c / 100)) := by
  rw [classify_record_eq hR] at hp ⊢
  have hp' : (s4Of (rawTokens raw)).price = some c := hp
  show (s5Of (rawTokens raw)).barcode ≠ some (natToChars (c / 100))
  unfold s5Of stage5Run
  exact stage5_foldl_barcode_inv (s4Of (rawTokens raw)).price c hp' hc
    (s4Of (rawTokens raw)).unknowns ⟨none, none, []⟩ (by simp)

/-- Witness for C7 (amended) on `"123.45 0123"`: price 123.45 is
captured, so no token spelled `"123"` can become the barcode. -/
theorem C7_amended_witness :
    (RecordData.mk (some 12345) (chars "INR") (some (chars "0123")) none none
        none none none none none none none [0, 0, 0, 0]).barcode
      ≠ some (natToChars (12345 / 100)) :=
  C7_amended (chars "123.45 0123") _ (by decide) 12345 rfl (by decide)

/-- C7 (counterexample): on `"123.45 0123"` the token `"0123"` has
integer value 123 — exactly the integer truncation of the captured price
123.45 — yet it IS assigned as barcode, because line 114 compares the
token string against `str(int(price)) = "123"`, which `"0123"` is not. -/
theorem C7_counterexample :
    (∃ R : RecordData, classify (chars "123.45 0123") = .record R ∧
        R.price = some 12345 ∧ R.barcode = some (chars "0123")) ∧
    natOfDigits (chars "0123") = 12345 / 100 := by
  constructor
  · exact ⟨RecordData.mk (some 12345) (chars "INR") (some (chars "0123")) none
      none none none none none none none none [0, 0, 0, 0], by decide, rfl, rfl⟩
  · decide

theorem map_snd_orderedInsert (p : Nat × Date) (l : List (Nat × Date)) :
    (List.orderedInsert pdle p l).map Prod.snd
      = List.orderedInsert dle p.2 (l.map Prod.snd) := by
  induction l with
  | nil => rfl
  | cons b t ih =>
    simp only [List.orderedInsert, List.map_cons]
    by_cases h : pdle p b
    · have h' : dle p.2 b.2 := h
      rw [if_pos h, if_pos h']
      simp
    · have h' : ¬dle p.2 b.2 := h
      rw [if_neg h, if_neg h']
      simp only [List.map_cons]
      rw [ih]

theorem map_snd_insertionSort (l : List (Nat × Date)) :
    (List.insertionSort pdle l).map Prod.snd
      = List.insertionSort dle (l.map Prod.snd) := by
  induction l with
  | nil => rfl
  | cons b t ih =>
    unfold List.insertionSort
    rw [map_snd_orderedInsert, ih]
    rfl

theorem sorted_head_le {v : Date} {l : List Date}
    (hs : List.Sorted dle (v :: l)) : ∀ x ∈ v :: l, dle v x := by
  intro x hx
  rcases List.mem_cons.mp hx with rfl | hx'
  · exact dle_refl x
  · exact List.rel_of_sorted_cons hs x hx'

theorem sorted_le_getLast? : ∀ {l : List Date}, List.Sorted dle l →
    ∀ x ∈ l, ∀ m, l.getLast? = some m → dle x m := by
  intro l
  induction l with
  | nil => intro _ x hx; simp at hx
  | cons a t ih =>
    intro hs x hx m hm
    cases t with
    | nil =>
      simp only [List.getLast?_singleton, Option.some.injEq] at hm
      have hx' : x = a := by simpa using hx
      subst hx'
      rw [← hm]
      exact dle_refl x
    | cons b t' =>
      rw [List.getLast?_cons_cons] at hm
      rcases List.mem_cons.mp hx with rfl | hx'
      · have hmem : m ∈ b :: t' :=
          List.mem_of_mem_getLast? (by rw [hm]; rfl)
        exact List.rel_of_sorted_cons hs m hmem
      · exact ih (List.sorted_cons.mp hs).2 x hx' m hm

/-- C2 (amended): date-role assignment by the count n of successfully
parsed date tokens.  When n = 1 the single date is assigned to BOTH
`bill_date` and `last_seen_date` while `date_acquired` stays absent (the
opposite of the claim's n = 1 clause).  When n ≥ 2 the claim's behaviour
holds: the chronologically earliest date becomes `bill_date`, the latest
`last_seen_date`; `date_acquired` is the latest when n = 2 and the date
ranked second by value when n ≥ 3; and `bill_date` ≤ `date_acquired` ≤
`last_seen_date`. -/
theorem C2_amended (raw : List Char) (R : RecordData)
    (hR : classify raw = .record R) :
    (∀ d : Date, rawDates raw = [d] →
        R.bill_date = some d ∧ R.last_seen_date = some d ∧
        R.date_acquired = none) ∧
    (2 ≤ (rawDates raw).length →
      (∃ dmin, R.bill_date = some dmin ∧ dmin ∈ rawDates raw ∧
          ∀ d ∈ rawDates raw, dle dmin d) ∧
      (∃ dmax, R.last_seen_date = some dmax ∧ dmax ∈ rawDates raw ∧
          ∀ d ∈ rawDates raw, dle d dmax) ∧
      ((rawDates raw).length = 2 → R.date_acquired = R.last_seen_date) ∧
      (3 ≤ (rawDates raw).length →
          R.date_acquired = (sortDates (rawDates raw))[1]?) ∧
      (∃ b a l, R.bill_date = some b ∧ R.date_acquired = some a ∧
          R.last_seen_date = some l ∧ dle b a ∧ dle a l)) := by
  have hRe := classify_record_eq hR
  subst hRe
  have hmap : (sortedPairsOf (rawTokens raw)).map Prod.snd
      = sortDates (rawDates raw) := map_snd_insertionSort _
  have hbd : (classifyTokens (rawTokens raw)).bill_date
      = (sortDates (rawDates raw)).head? := by
    show (sortedPairsOf (rawTokens raw)).head?.map Prod.snd = _
    rw [← hmap, List.head?_map]
  have hls : (classifyTokens (rawTokens raw)).last_seen_date
      = (sortDates (rawDates raw)).getLast? := by
    show (sortedPairsOf (rawTokens raw)).getLast?.map Prod.snd = _
    rw [← hmap, List.getLast?_map]
  have hsplen : (sortedPairsOf (rawTokens raw)).length
      = (sortDates (rawDates raw)).length := by
    rw [← hmap, List.length_map]
  have hda : (classifyTokens (rawTokens raw)).date_acquired
      = (if 1 < (sortDates (rawDates raw)).length then
          (if 2 < (sortDates (rawDates raw)).length then
            (sortDates (rawDates raw))[1]?
           else (sortDates (rawDates raw)).getLast?)
         else none) := by
    show (if 1 < (sortedPairsOf (rawTokens raw)).length then _ else none) = _
    rw [hsplen]
    by_cases h1 : 1 < (sortDates (rawDates raw)).length
    · rw [if_pos h1, if_pos h1]
      by_cases h2 : 2 < (sortDates (rawDates raw)).length
      · rw [if_pos h2, if_pos h2, ← hmap, List.getElem?_map]
      · rw [if_neg h2, if_neg h2, ← hmap, List.getLast?_map]
    · rw [if_neg h1, if_neg h1]
  have hsorted : List.Sorted dle (sortDates (rawDates raw)) :=
    List.sorted_insertionSort dle _
  have hperm : (sortDates (rawDates raw)).Perm (rawDates raw) :=
    List.perm_insertionSort dle _
  have hlen : (sortDates (rawDates raw)).length = (rawDates raw).length :=
    hperm.length_eq
  constructor
  · -- n = 1
    intro d hd
    have hvs : sortDates (rawDates raw) = [d] :=
      List.perm_singleton.mp (hd ▸ hperm)
    refine ⟨?_, ?_, ?_⟩
    · rw [hbd, hvs]; rfl
    · rw [hls, hvs]; rfl
    · rw [hda, hvs]
      simp
  · -- n ≥ 2
    intro h2
    have h2' : 2 ≤ (sortDates (rawDates raw)).length := by rw [hlen]; exact h2
    obtain ⟨v0, v1, rest, hvs⟩ :
        ∃ v0 v1 rest, sortDates (rawDates raw) = v0 :: v1 :: rest := by
      cases hv : sortDates (rawDates raw) with
      | nil => rw [hv] at h2'; simp at h2'
      | cons v0 t =>
        cases t with
        | nil => rw [hv] at h2'; simp at h2'
        | cons v1 rest => exact ⟨v0, v1, rest, rfl⟩
    have hmem_iff : ∀ x, x ∈ sortDates (rawDates raw) ↔ x ∈ rawDates raw :=
      fun x => hperm.mem_iff
    have hsorted' : List.Sorted dle (v0 :: v1 :: rest) := hvs ▸ hsorted
    have hne : sortDates (rawDates raw) ≠ [] := by rw [hvs]; exact List.cons_ne_nil _ _
    have hlast : (sortDates (rawDates raw)).getLast? =
        some ((sortDates (rawDates raw)).getLast hne) :=
      List.getLast?_eq_getLast_of_ne_nil hne
    have hlastmem : (sortDates (rawDates raw)).getLast hne ∈ rawDates raw :=
      (hmem_iff _).mp (List.getLast_mem hne)
    have hmin : ∀ d ∈ rawDates raw, dle v0 d := by
      intro d hd
      have : d ∈ v0 :: v1 :: rest := hvs ▸ (hmem_iff d).mpr hd
      exact sorted_head_le hsorted' d this
    have hmax : ∀ d ∈ rawDates raw, dle d ((sortDates (rawDates raw)).getLast hne) := by
      intro d hd
      exact sorted_le_getLast? hsorted d ((hmem_iff d).mpr hd) _ hlast
    refine ⟨⟨v0, ?_, ?_, hmin⟩, ⟨(sortDates (rawDates raw)).getLast hne, ?_, hlastmem, hmax⟩, ?_, ?_, ?_⟩
    · rw [hbd, hvs]; rfl
    · exact (hmem_iff v0).mp (by rw [hvs]; exact List.mem_cons_self _ _)
    · rw [hls, hlast]
    · -- n = 2 → date_acquired = last_seen_date
      intro hn2
      rw [hda, hls]
      have hl2 : (sortDates (rawDates raw)).length = 2 := by rw [hlen]; exact hn2
      rw [if_pos (by omega), if_neg (by omega)]
    · -- n ≥ 3 → date_acquired = second by value
      intro hn3
      rw [hda]
      have hl3 : 3 ≤ (sortDates (rawDates raw)).length := by rw [hlen]; exact hn3
      rw [if_pos (by omega), if_pos (by omega)]
    · -- the chain bill ≤ acquired ≤ last
      by_cases h3 : 3 ≤ (rawDates raw).length
      · have hl3 : 3 ≤ (sortDates (rawDates raw)).length := by rw [hlen]; exact h3
        refine ⟨v0, v1, (sortDates (rawDates raw)).getLast hne, ?_, ?_, ?_, ?_, ?_⟩
        · rw [hbd, hvs]; rfl
        · rw [hda, if_pos (by omega), if_pos (by omega), hvs]; simp
        · rw [hls, hlast]
        · exact sorted_head_le hsorted' v1 (by simp)
        · exact sorted_le_getLast? hsorted v1
            (by rw [hvs]; simp) _ hlast
      · have hl2 : (sortDates (rawDates raw)).length = 2 := by
          rw [hlen]; omega
        refine ⟨v0, (sortDates (rawDates raw)).getLast hne,
          (sortDates (rawDates raw)).getLast hne, ?_, ?_, ?_, ?_, dle_refl _⟩
        · rw [hbd, hvs]; rfl
        · rw [hda, if_pos (by omega), if_neg (by omega), hlast]
        · rw [hls, hlast]
        · exact hmax v0 ((hmem_iff v0).mp (by rw [hvs]; simp))

/-- Witness for C2 (amended) on the single-date input `"2007-06-15"`. -/
theorem C2_amended_witness :
    (RecordData.mk none (chars "INR") none none none none none none
        (some ⟨2007, 6, 15⟩) none (some ⟨2007, 6, 15⟩) none
        [0, 0, 0, 0]).bill_date = some ⟨2007, 6, 15⟩ ∧
    (RecordData.mk none (chars "INR") none none none none none none
        (some ⟨2007, 6, 15⟩) none (some ⟨2007, 6, 15⟩) none
        [0, 0, 0, 0]).last_seen_date = some ⟨2007, 6, 15⟩ ∧
    (RecordData.mk none (chars "INR") none none none none none none
        (some ⟨2007, 6, 15⟩) none (some ⟨2007, 6, 15⟩) none
        [0, 0, 0, 0]).date_acquired = none :=
  (C2_amended (chars "2007-06-15") _ (by decide)).1 ⟨2007, 6, 15⟩ (by decide)

/-- C2 (counterexample): on the single-date input `"2007-06-15"` (n = 1)
the code assigns the date to `bill_date` AND `last_seen_date` and leaves
`date_acquired` absent — the claim's n = 1 clause (date_acquired only,
bill/last-seen absent) is false. -/
theorem C2_counterexample :
    (rawDates (chars "2007-06-15")).length = 1 ∧
    ¬ (∃ R : RecordData, classify (chars "2007-06-15") = .record R ∧
        R.bill_date = none ∧ R.last_seen_date = none ∧
        R.date_acquired = some ⟨2007, 6, 15⟩) := by
  constructor
  · decide
  · rintro ⟨R, hR, hb, -, -⟩
    have h2 : classify (chars "2007-06-15") = .record
        (RecordData.mk none (chars "INR") none none none none none none
          (some ⟨2007, 6, 15⟩) none (some ⟨2007, 6, 15⟩) none
          [0, 0, 0, 0]) := by decide
    rw [h2] at hR
    injection hR with h'
    rw [← h'] at hb
    cases hb

/-- C1 (counterexample): on Scenario A's input the classifier does NOT
return the claimed record.  The anchor stage captures `"250.00"` (the
token before the first date) as `bill_number`, so stage 4 skips it and
`price` stays absent; a single date sets `bill_date`/`last_seen_date` but
leaves `date_acquired` absent; and the call number is `"621.7:744"`
without the Cutter suffix (V11 has no suffix-joining). -/
theorem C1_counterexample :
    ¬ (∃ R : RecordData,
        classify (chars "0 0 0 0 250.00 2007-06-15 VIT IIF-R76-C2-A 621.7:744 BHA 5023")
          = .record R ∧
        R.status_flags = [0, 0, 0, 0] ∧ R.price = some 25000 ∧
        R.bill_date = some ⟨2007, 6, 15⟩ ∧ R.date_acquired = some ⟨2007, 6, 15⟩ ∧
        R.last_seen_date = some ⟨2007, 6, 15⟩ ∧
        R.library_code = some (chars "VIT") ∧
        R.shelving_location = some (chars "IIF-R76-C2-A") ∧
        R.call_number = some (chars "621.7:744 BHA") ∧
        R.barcode = some (chars "5023")) := by
  rintro ⟨R, hR, -, hp, -⟩
  have h2 : classify (chars "0 0 0 0 250.00 2007-06-15 VIT IIF-R76-C2-A 621.7:744 BHA 5023")
      = .record
      (RecordData.mk none (chars "INR") (some (chars "5023"))
        (some (chars "621.7:744")) (some (chars "IIF-R76-C2-A"))
        (some (chars "VIT")) (some (chars "BHA")) (some (chars "250.00"))
        (some ⟨2007, 6, 15⟩) none (some ⟨2007, 6, 15⟩) none
        [0, 0, 0, 0]) := by decide
  rw [h2] at hR
  injection hR with h'
  rw [← h'] at hp
  cases hp

/-- C1 (amended): the record the code actually produces on Scenario A's
input: flags all 0; `price` absent (its token became the bill number);
`bill_number = "250.00"`; bill and last-seen dates 2007-06-15 with
`date_acquired` absent; library code `"VIT"`; shelving
`"IIF-R76-C2-A"`; call number `"621.7:744"` (no Cutter suffix); barcode
`"5023"`; vendor `"BHA"`. -/
theorem C1_amended :
    classify (chars "0 0 0 0 250.00 2007-06-15 VIT IIF-R76-C2-A 621.7:744 BHA 5023")
      = .record
      (RecordData.mk none (chars "INR") (some (chars "5023"))
        (some (chars "621.7:744")) (some (chars "IIF-R76-C2-A"))
        (some (chars "VIT")) (some (chars "BHA")) (some (chars "250.00"))
        (some ⟨2007, 6, 15⟩) none (some ⟨2007, 6, 15⟩) none
        [0, 0, 0, 0]) := by decide

/-- C6 (counterexample): healing `"9.78812E+12"` yields
`"9788120000000"` (the expansion of the stored mantissa — not the claimed
`"9788122414837"`, whose lower digits were already lost upstream), and
V11 has no ISBN-prefix exclusion at all: the healed token is numeric and
longer than three digits, so it is captured as `barcode`, and the vendor
accumulator stays empty. -/
theorem C6_counterexample :
    heal_data (chars "9.78812E+12") = some (chars "9788120000000") ∧
    chars "9788120000000" ≠ chars "9788122414837" ∧
    (∃ R : RecordData, classify (chars "9.78812E+12") = .record R ∧
        R.barcode = some (chars "9788120000000") ∧ R.vendor = none) := by
  refine ⟨by decide, by decide, ?_⟩
  exact ⟨RecordData.mk none (chars "INR") (some (chars "9788120000000"))
    none none none none none none none none none [0, 0, 0, 0],
    by decide, rfl, rfl⟩

/-- C6 (amended): on `"9.78812E+12"` healing produces the single token
`"9788120000000"`; the classifier has no ISBN handling, so the token is
classified by the ordinary residual rules — numeric, length > 3, no
captured price — and becomes the barcode; every other slot, vendor
included, stays absent. -/
theorem C6_amended :
    classify (chars "9.78812E+12") = .record
      (RecordData.mk none (chars "INR") (some (chars "9788120000000"))
        none none none none none none none none none [0, 0, 0, 0]) := by
  decide
